import Mathlib

/-!
Shallow embedding of the airport-graph engine of `main.py`
(`AirportsGraph` and its query methods), together with proofs that settle
the specification claims about it.

Python dictionaries are modelled as association lists in insertion order
(`dictGet` finds the first entry with the key, `dictInsert` replaces the
value in place if the key is present and appends otherwise, exactly the
semantics of `d[k] = v`).  Python sets whose iteration order is irrelevant
to the claims are modelled as lists.  The floating-point haversine
computation `get_earth_distance` is kept abstract: every theorem
quantifies over an arbitrary distance function `dist : Nat → Nat → Int`,
since no claim depends on the numeric value of an edge weight, only on
how `add_edge` stores it.  Python exceptions are modelled with
`Except String`.
-/

/-- Python dict lookup `d[k]` / `k in d`: first entry with the given key. -/
def dictGet {κ β : Type} [DecidableEq κ] (k : κ) : List (κ × β) → Option β
  | [] => none
  | (k', v) :: rest => if k' = k then some v else dictGet k rest

/-- Python dict assignment `d[k] = v`: replace in place if present, else append. -/
def dictInsert {κ β : Type} [DecidableEq κ] (k : κ) (v : β) : List (κ × β) → List (κ × β)
  | [] => [(k, v)]
  | (k', v') :: rest => if k' = k then (k, v) :: rest else (k', v') :: dictInsert k v rest

/-- `Airport` dataclass of `main.py` (coordinates kept abstract as an integer
pair; no claim computes with them). -/
structure Airport where
  name : String
  city : String
  country : String
  coordinates : Int × Int
  timezone : String
deriving DecidableEq, Repr

/-- `_AirportVertex` of `main.py`: id, item, vertex weight and the neighbour
dictionary mapping neighbour id to cached edge weight. -/
structure AirportVertex where
  id : Nat
  item : Airport
  global_peace_index : Int
  neighbours : List (Nat × Int)
deriving DecidableEq, Repr

/-- `AirportsGraph` of `main.py`: the `_vertices` dictionary. -/
structure AirportsGraph where
  vertices : List (Nat × AirportVertex)
deriving DecidableEq, Repr

/-- `airport_id in self._vertices`. -/
def containsB (g : AirportsGraph) (airport_id : Nat) : Bool :=
  (dictGet airport_id g.vertices).isSome

/-- The neighbour dictionary of a vertex (empty for an absent id). -/
def nbrsOf (g : AirportsGraph) (airport_id : Nat) : List (Nat × Int) :=
  match dictGet airport_id g.vertices with
  | none => []
  | some v => v.neighbours

/-- Weight under which `b` appears in `a`'s neighbour dictionary, if any. -/
def lookupNbr (g : AirportsGraph) (a b : Nat) : Option Int :=
  match dictGet a g.vertices with
  | none => none
  | some v => dictGet b v.neighbours

/-- `_AirportVertex.get_degree`: `len(self.neighbours)`. -/
def get_degree (g : AirportsGraph) (airport_id : Nat) : Nat :=
  (nbrsOf g airport_id).length

/-- `AirportsGraph.add_vertex`: insert a fresh vertex with an empty neighbour
dictionary; a present id is left untouched. -/
def add_vertex (g : AirportsGraph) (airport_id : Nat) (item : Airport)
    (global_peace_index : Int) : AirportsGraph :=
  if containsB g airport_id then g
  else ⟨g.vertices ++ [(airport_id, ⟨airport_id, item, global_peace_index, []⟩)]⟩

/-- Rewrite one vertex's neighbour dictionary (models a mutation of the
`_AirportVertex` object stored under `x`). -/
def updateNbrs (g : AirportsGraph) (x : Nat) (f : List (Nat × Int) → List (Nat × Int)) :
    AirportsGraph :=
  ⟨g.vertices.map (fun p => if p.1 = x then (p.1, { p.2 with neighbours := f p.2.neighbours }) else p)⟩

/-- `AirportsGraph.add_edge`.  `dist` stands for `self.get_earth_distance`.
If either endpoint is absent a `KeyError` is raised; if the edge already
exists in either direction the call returns with no mutation; otherwise the
weight is computed once and stored on both sides (the two sequential dict
assignments of the source; for `src = dst` they hit the same dictionary). -/
def add_edge (dist : Nat → Nat → Int) (g : AirportsGraph) (source_id destination_id : Nat) :
    Except String AirportsGraph :=
  if containsB g source_id && containsB g destination_id then
    if (lookupNbr g destination_id source_id).isSome
        || (lookupNbr g source_id destination_id).isSome then
      .ok g
    else
      let d := dist source_id destination_id
      .ok (updateNbrs (updateNbrs g source_id (dictInsert destination_id d))
            destination_id (dictInsert source_id d))
  else
    .error "Source ID or Destination ID do not exist in this graph."

/-- `AirportsGraph.get_neighbours`: the ids adjacent to a present vertex,
`ValueError` otherwise.  (Python returns a set; the claims settled here do
not depend on set iteration order, so adjacency insertion order is used.) -/
def get_neighbours (g : AirportsGraph) (airport_id : Nat) : Except String (List Nat) :=
  match dictGet airport_id g.vertices with
  | none => .error "The given airport id does not exist."
  | some v => .ok (v.neighbours.map Prod.fst)

/-- `AirportsGraph.get_distance`: `v1.neighbours.get(v2, 0)` when both ids are
present, `ValueError` otherwise. -/
def get_distance (g : AirportsGraph) (id1 id2 : Nat) : Except String Int :=
  match dictGet id1 g.vertices, dictGet id2 g.vertices with
  | some v1, some _ => .ok ((dictGet id2 v1.neighbours).getD 0)
  | _, _ => .error "No distance given between these two airports."

/-- One graph-building call, as in `load_airports_graph`. -/
inductive GraphOp
  | addV (id : Nat) (item : Airport) (gpi : Int)
  | addE (src dst : Nat)
deriving DecidableEq, Repr

/-- Apply one building operation; a failing `add_edge` leaves the graph as it
was (the exception propagates before any mutation). -/
def applyOp (dist : Nat → Nat → Int) (g : AirportsGraph) : GraphOp → AirportsGraph
  | .addV id item gpi => add_vertex g id item gpi
  | .addE s d =>
    match add_edge dist g s d with
    | .ok g' => g'
    | .error _ => g

/-- The graph reached from the empty graph by a sequence of building calls. -/
def buildGraph (dist : Nat → Nat → Int) (ops : List GraphOp) : AirportsGraph :=
  ops.foldl (applyOp dist) ⟨[]⟩

/-!  `is_connected`: recursive depth-first search with a shared visited set.
The Python recursion terminates because every level adds a fresh vertex to
`visited`; the embedding makes that bound explicit with a fuel argument
(`is_connected` is entered with fuel `|vertices| + 1`, which exceeds the
recursion depth on any graph whose neighbour ids are present vertices).
Raising `ValueError` inside `get_neighbours` discards the visited set, so
checking the vertex before marking it is equivalent to the source order. -/

/-- `AirportsGraph.is_connected`, returning the flag and the threaded
visited set.  The `for neighbour in self.get_neighbours(source_id)` loop
with its early `return True` is rendered as a fold whose state carries the
found flag: once the flag is set, the remaining iterations pass the state
through unchanged, which is observationally the early return.  (The
source's `if visited is set()` guard is dead code: `is` compares object
identity with a fresh set, hence is always false.) -/
def is_connectedF (g : AirportsGraph) (fuel : Nat) (source_id destination_id : Nat)
    (visited : List Nat) : Except String (Bool × List Nat) :=
  match fuel with
  | 0 => .ok (false, visited)
  | fuel' + 1 =>
    if source_id = destination_id then .ok (true, visited)
    else
      match dictGet source_id g.vertices with
      | none => .error "The given airport id does not exist."
      | some v =>
        (v.neighbours.map Prod.fst).foldlM
          (fun st n =>
            if st.1 then .ok st
            else if n ∈ st.2 then .ok st
            else is_connectedF g fuel' n destination_id st.2)
          (false, visited ++ [source_id])

/-- `is_connected` as called by the application: fresh `visited`, and only
the boolean is observed. -/
def is_connected (g : AirportsGraph) (source_id destination_id : Nat) :
    Except String Bool :=
  (is_connectedF g (g.vertices.length + 1) source_id destination_id []).map Prod.fst

/-- `AirportsGraph.get_neighbour_within_dist`: direct neighbours whose edge
weight is at most `max_distance`; `KeyError` on an absent id. -/
def get_neighbour_within_dist (g : AirportsGraph) (airport_id : Nat) (max_distance : Int) :
    Except String (List Nat) :=
  match dictGet airport_id g.vertices with
  | none => .error "KeyError"
  | some v => .ok ((v.neighbours.filter (fun p => decide (p.2 ≤ max_distance))).map Prod.fst)

/-- `AirportsGraph.dfs_for_distance`: budgeted depth-first search.  A branch
stops when the remaining budget is negative or the vertex is already in the
set; otherwise the vertex is added and each neighbour explored with the
budget reduced by the edge weight.  Fuel bounds the recursion depth, which
on any graph with present neighbour ids is at most `|vertices| + 1`. -/
def dfs_for_distance (g : AirportsGraph) (fuel : Nat) (airport_id : Nat)
    (max_distance : Int) (airports_in_dist : List Nat) : Except String (List Nat) :=
  match fuel with
  | 0 => .ok airports_in_dist
  | fuel' + 1 =>
    if max_distance < 0 ∨ airport_id ∈ airports_in_dist then .ok airports_in_dist
    else
      match dictGet airport_id g.vertices with
      | none => .error "KeyError"
      | some v =>
        v.neighbours.foldlM
          (fun acc p => dfs_for_distance g fuel' p.1 (max_distance - p.2) acc)
          (airports_in_dist ++ [airport_id])

/-- `AirportsGraph.get_connected_within_dist`: empty set for an absent
source, otherwise the visited set of the budgeted depth-first search. -/
def get_connected_within_dist (g : AirportsGraph) (airport_id : Nat) (max_distance : Int) :
    Except String (List Nat) :=
  if containsB g airport_id then
    dfs_for_distance g (g.vertices.length + 1) airport_id max_distance []
  else
    .ok []

/-- One iteration of the intersection loop of `get_close_airports_adjacent`:
`close_airports = close_airports.intersection(self.get_neighbour_within_dist(...))`. -/
def adjStep (g : AirportsGraph) (max_distance : Int) (acc : List Nat) (id : Nat) :
    Except String (List Nat) :=
  match get_neighbour_within_dist g id max_distance with
  | .error e => .error e
  | .ok s => .ok (acc.filter (fun x => s.contains x))

/-- `AirportsGraph.get_close_airports_adjacent`: left-to-right intersection
of the within-distance neighbour sets of the seeds (`airport_ids[0]` raises
`IndexError` on an empty seed list). -/
def get_close_airports_adjacent (g : AirportsGraph) (airport_ids : List Nat)
    (max_distance : Int) : Except String (List Nat) :=
  match airport_ids with
  | [] => .error "list index out of range"
  | first :: rest =>
    match get_neighbour_within_dist g first max_distance with
    | .error e => .error e
    | .ok init => rest.foldlM (adjStep g max_distance) init

/-- One iteration of the intersection loop of `get_close_airports_connected`. -/
def connStep (g : AirportsGraph) (max_distance : Int) (acc : List Nat) (id : Nat) :
    Except String (List Nat) :=
  match get_connected_within_dist g id max_distance with
  | .error e => .error e
  | .ok s => .ok (acc.filter (fun x => s.contains x))

/-- `AirportsGraph.get_close_airports_connected`: left-to-right intersection
of the budgeted-reachability sets of the seeds. -/
def get_close_airports_connected (g : AirportsGraph) (airport_ids : List Nat)
    (max_distance : Int) : Except String (List Nat) :=
  match airport_ids with
  | [] => .error "list index out of range"
  | first :: rest =>
    match get_connected_within_dist g first max_distance with
    | .error e => .error e
    | .ok init => rest.foldlM (connStep g max_distance) init

/-!  Stable sorts in the sense of Python `sorted` (insertion sort: an element
is placed before the elements of equal key that originally followed it). -/

/-- Insert keeping ascending key order, before equal keys. -/
def insertAsc {α : Type} (f : α → Int) (x : α) : List α → List α
  | [] => [x]
  | y :: ys => if f y < f x then y :: insertAsc f x ys else x :: y :: ys

/-- Python `sorted(l, key=f)`: stable, ascending. -/
def sortAscBy {α : Type} (f : α → Int) : List α → List α
  | [] => []
  | x :: xs => insertAsc f x (sortAscBy f xs)

/-- Insert keeping descending key order, before equal keys. -/
def insertDesc {α : Type} (f : α → Int) (x : α) : List α → List α
  | [] => [x]
  | y :: ys => if f x < f y then y :: insertDesc f x ys else x :: y :: ys

/-- Python `sorted(l, key=f, reverse=True)`: stable, descending. -/
def sortDescBy {α : Type} (f : α → Int) : List α → List α
  | [] => []
  | x :: xs => insertDesc f x (sortDescBy f xs)

/-- `countries[country].append(airport_id)` after the `if country not in
countries` guard: append to the existing group or create a new one at the
end (dict insertion order). -/
def groupAdd : List (String × List Nat) → String → Nat → List (String × List Nat)
  | [], c, id => [(c, [id])]
  | (c', l) :: rest, c, id =>
    if c' = c then (c', l ++ [id]) :: rest else (c', l) :: groupAdd rest c id

/-- Step 1 of `rank_airports`: group the candidate ids by country
(`KeyError` on an absent candidate, as `self._vertices[airport_id]`). -/
def groupByCountry (g : AirportsGraph) (airport_ids : List Nat) :
    Except String (List (String × List Nat)) :=
  airport_ids.foldlM
    (fun acc id =>
      match dictGet id g.vertices with
      | none => .error "KeyError"
      | some v => .ok (groupAdd acc v.item.country id))
    []

/-- Step 2 of `rank_airports`, exactly as the source writes it: every
country's list is replaced by `sorted(airport_ids, key=degree,
reverse=True)[:max_out_size]` — the sort runs over the whole candidate set
`airport_ids`, not over `countries[country]` (`main.py` line 308). -/
def rankStep2 (g : AirportsGraph) (airport_ids : List Nat) (max_out_size : Nat)
    (groups : List (String × List Nat)) : List (String × List Nat) :=
  groups.map
    (fun p => (p.1, (sortDescBy (fun i => (get_degree g i : Int)) airport_ids).take max_out_size))

/-- The sort key of step 3 of `rank_airports`:
`self._vertices[countries[given_id][0]].global_peace_index`, which raises
`IndexError` on an empty group and `KeyError` on an absent id. -/
def countryKey (g : AirportsGraph) (p : String × List Nat) : Except String (Int × List Nat) :=
  match p.2 with
  | [] => .error "list index out of range"
  | x :: _ =>
    match dictGet x g.vertices with
    | none => .error "KeyError"
    | some v => .ok (v.global_peace_index, p.2)

/-- `AirportsGraph.rank_airports`: group by country, replace each group by
the step-2 list, order the countries by the `global_peace_index` of each
group's first element, concatenate and truncate. -/
def rank_airports (g : AirportsGraph) (airport_ids : List Nat) (max_out_size : Nat) :
    Except String (List Nat) :=
  match groupByCountry g airport_ids with
  | .error e => .error e
  | .ok groups =>
    match (rankStep2 g airport_ids max_out_size groups).mapM (countryKey g) with
    | .error e => .error e
    | .ok keyed =>
      .ok (((sortAscBy (fun q => q.1) keyed).foldl (fun acc q => acc ++ q.2) []).take
        max_out_size)

/-!  Concrete graphs used in counterexamples and witnesses. -/

/-- A throwaway airport record with the given name and country. -/
def mkAirport (n c : String) : Airport := ⟨n, "city", c, (0, 0), "tz"⟩

/-- Edge-weight table for `gBudget`; `add_edge` only queries the ordered
pairs that appear in the build sequence. -/
def distBudget (a b : Nat) : Int :=
  if a = 0 ∧ b = 1 then 100
  else if a = 0 ∧ b = 2 then 1
  else if a = 1 ∧ b = 3 then 100
  else if a = 2 ∧ b = 3 then 1
  else if a = 3 ∧ b = 4 then 2
  else 0

/-- Five airports 0‥4 with routes 0–1 (100), 0–2 (1), 1–3 (100), 2–3 (1),
3–4 (2): vertex 4 is reached with budget 4 through 0–2–3–4 but missed with
budget 201, where the traversal first freezes vertex 3 via the expensive
path 0–1–3. -/
def gBudget : AirportsGraph :=
  buildGraph distBudget
    [.addV 0 (mkAirport "A0" "CA") 1, .addV 1 (mkAirport "A1" "CA") 1,
     .addV 2 (mkAirport "A2" "CA") 1, .addV 3 (mkAirport "A3" "CA") 1,
     .addV 4 (mkAirport "A4" "CA") 1,
     .addE 0 1, .addE 0 2, .addE 1 3, .addE 2 3, .addE 3 4]

/-- Three airports: 1 and 3 in country CA joined by a route, 2 isolated in
country CB.  Candidate set `[1, 2]` exposes the step-2 grouping bug of
`rank_airports`. -/
def gRank : AirportsGraph :=
  buildGraph (fun _ _ => 5)
    [.addV 1 (mkAirport "A1" "CA") 1, .addV 2 (mkAirport "A2" "CB") 2,
     .addV 3 (mkAirport "A3" "CA") 1, .addE 1 3]

/-- A single airport, used for the self-loop counterexample. -/
def gSelf : AirportsGraph := buildGraph (fun _ _ => 0) [.addV 0 (mkAirport "A0" "CA") 1]

/-- Well-formedness: every neighbour id stored anywhere in the graph is
itself a vertex of the graph.  Every graph reachable by `add_vertex` /
`add_edge` satisfies this (`add_edge` links only present vertices). -/
def wfB (g : AirportsGraph) : Bool :=
  g.vertices.all (fun p => p.2.neighbours.all (fun q => containsB g q.1))

/-- `PathWeight g x y c`: there is a route path from `x` to `y` whose edge
weights (as recorded in the successive neighbour dictionaries) sum to `c`. -/
inductive PathWeight (g : AirportsGraph) : Nat → Nat → Int → Prop
  | nil (x : Nat) : PathWeight g x x 0
  | cons {x y z : Nat} {w c : Int} :
      (y, w) ∈ nbrsOf g x → PathWeight g y z c → PathWeight g x z (w + c)

/-- Edge symmetry: `b` appears in `a`'s neighbour dictionary with weight `w`
iff `a` appears in `b`'s with the same weight. -/
def EdgeSymm (g : AirportsGraph) : Prop :=
  ∀ a b w, lookupNbr g a b = some w ↔ lookupNbr g b a = some w

/-- Every recorded neighbour id is a present vertex (propositional variant
of `wfB`, used as an auxiliary invariant for `EdgeSymm`). -/
def NbrsPresent (g : AirportsGraph) : Prop :=
  ∀ a b w, lookupNbr g a b = some w → containsB g b = true

/-!  ## Helper lemmas -/

theorem dictGet_dictInsert {κ β : Type} [DecidableEq κ] (k k' : κ) (v : β)
    (l : List (κ × β)) :
    dictGet k (dictInsert k' v l) = if k = k' then some v else dictGet k l := by
  induction l with
  | nil =>
    by_cases h : k = k'
    · subst h; simp [dictInsert, dictGet]
    · simp [dictInsert, dictGet, h, Ne.symm h]
  | cons p rest ih =>
    obtain ⟨a, b⟩ := p
    by_cases h1 : a = k'
    · subst h1
      by_cases h2 : k = a
      · subst h2; simp [dictInsert, dictGet]
      · simp [dictInsert, dictGet, h2, Ne.symm h2]
    · by_cases h3 : a = k
      · subst h3
        simp [dictInsert, dictGet, h1]
      · simp [dictInsert, dictGet, h1, h3, ih]

theorem dictGet_append {κ β : Type} [DecidableEq κ] (k : κ) (l1 l2 : List (κ × β)) :
    dictGet k (l1 ++ l2) =
      match dictGet k l1 with
      | some v => some v
      | none => dictGet k l2 := by
  induction l1 with
  | nil => simp [dictGet]
  | cons p rest ih =>
    by_cases h : p.1 = k <;> simp [dictGet, h, ih]

theorem dictGet_some_mem {κ β : Type} [DecidableEq κ] {k : κ} {v : β}
    {l : List (κ × β)} (h : dictGet k l = some v) : (k, v) ∈ l := by
  induction l with
  | nil => simp [dictGet] at h
  | cons p rest ih =>
    obtain ⟨a, b⟩ := p
    by_cases h1 : a = k
    · subst h1
      simp [dictGet] at h
      subst h
      exact List.mem_cons_self _ _
    · simp [dictGet, h1] at h
      exact List.mem_cons_of_mem _ (ih h)

theorem dictGet_mapUpdate {κ β : Type} [DecidableEq κ] (x : κ) (h : β → β)
    (l : List (κ × β)) (a : κ) :
    dictGet a (l.map (fun p => if p.1 = x then (p.1, h p.2) else p)) =
      if a = x then (dictGet a l).map h else dictGet a l := by
  induction l with
  | nil => by_cases hax : a = x <;> simp [dictGet, hax]
  | cons p rest ih =>
    obtain ⟨pk, pv⟩ := p
    simp only [List.map_cons]
    by_cases hpx : pk = x
    · subst hpx
      rw [if_pos rfl]
      by_cases hpa : pk = a
      · subst hpa
        simp [dictGet, ih]
      · simp [dictGet, hpa, Ne.symm hpa, ih]
    · rw [if_neg hpx]
      by_cases hpa : pk = a
      · subst hpa
        simp [dictGet, hpx, ih]
      · simp [dictGet, hpa, ih]

theorem dictGet_updateNbrs (g : AirportsGraph) (x : Nat)
    (f : List (Nat × Int) → List (Nat × Int)) (a : Nat) :
    dictGet a (updateNbrs g x f).vertices =
      if a = x then (dictGet a g.vertices).map (fun v => { v with neighbours := f v.neighbours })
      else dictGet a g.vertices := by
  simpa [updateNbrs] using dictGet_mapUpdate x (fun v => { v with neighbours := f v.neighbours }) g.vertices a

theorem containsB_updateNbrs (g : AirportsGraph) (x : Nat)
    (f : List (Nat × Int) → List (Nat × Int)) (a : Nat) :
    containsB (updateNbrs g x f) a = containsB g a := by
  by_cases h : a = x <;> simp [containsB, dictGet_updateNbrs, h]

theorem lookupNbr_updateNbrs (g : AirportsGraph) (x : Nat)
    (f : List (Nat × Int) → List (Nat × Int)) (a b : Nat) :
    lookupNbr (updateNbrs g x f) a b =
      if a = x then
        match dictGet x g.vertices with
        | none => none
        | some v => dictGet b (f v.neighbours)
      else lookupNbr g a b := by
  by_cases h : a = x
  · subst h
    simp only [lookupNbr, dictGet_updateNbrs, if_pos rfl]
    cases hv : dictGet a g.vertices <;> simp
  · simp [lookupNbr, dictGet_updateNbrs, h]

theorem lookupNbr_add_vertex (g : AirportsGraph) (id : Nat) (item : Airport)
    (gpi : Int) (a b : Nat) :
    lookupNbr (add_vertex g id item gpi) a b =
      if containsB g id = false ∧ a = id then none else lookupNbr g a b := by
  by_cases hc : containsB g id
  · simp [add_vertex, hc]
  · rw [add_vertex, if_neg (by simp [hc])]
    by_cases ha : a = id
    · subst ha
      have h1 : dictGet a g.vertices = none := by
        cases h : dictGet a g.vertices
        · rfl
        · simp [containsB, h] at hc
      simp [lookupNbr, dictGet_append, h1, dictGet, hc, eq_false_of_ne_true hc]
    · simp only [lookupNbr, dictGet_append]
      cases h : dictGet a g.vertices <;> simp [dictGet, ha, Ne.symm ha, h, hc]

theorem containsB_add_vertex_of (g : AirportsGraph) (id : Nat) (item : Airport)
    (gpi : Int) (a : Nat) (h : containsB g a = true) :
    containsB (add_vertex g id item gpi) a = true := by
  by_cases hc : containsB g id
  · simpa [add_vertex, hc]
  · obtain ⟨v, hv⟩ := Option.isSome_iff_exists.mp h
    rw [add_vertex, if_neg (by simp [hc])]
    simp [containsB, dictGet_append, hv]

theorem add_edge_new_spec (dist : Nat → Nat → Int) (g : AirportsGraph) (src dst : Nat)
    (hs : containsB g src = true) (hd : containsB g dst = true)
    (h1 : lookupNbr g dst src = none) (h2 : lookupNbr g src dst = none) :
    add_edge dist g src dst =
      .ok (updateNbrs (updateNbrs g src (dictInsert dst (dist src dst)))
            dst (dictInsert src (dist src dst)))
      ∧ (∀ a b,
          lookupNbr (updateNbrs (updateNbrs g src (dictInsert dst (dist src dst)))
              dst (dictInsert src (dist src dst))) a b =
            if (a = src ∧ b = dst) ∨ (a = dst ∧ b = src) then some (dist src dst)
            else lookupNbr g a b)
      ∧ (∀ a,
          containsB (updateNbrs (updateNbrs g src (dictInsert dst (dist src dst)))
              dst (dictInsert src (dist src dst))) a = containsB g a) := by
  obtain ⟨vs, hvs⟩ := Option.isSome_iff_exists.mp hs
  obtain ⟨vd, hvd⟩ := Option.isSome_iff_exists.mp hd
  have hsd : dictGet dst vs.neighbours = none := by
    simpa [lookupNbr, hvs] using h2
  have hds : dictGet src vd.neighbours = none := by
    simpa [lookupNbr, hvd] using h1
  refine ⟨by simp [add_edge, hs, hd, h1, h2], ?_, ?_⟩
  · intro a b
    rw [lookupNbr_updateNbrs, lookupNbr_updateNbrs, dictGet_updateNbrs]
    by_cases had : a = dst
    · subst had
      by_cases hax : a = src
      · subst hax
        rw [if_pos rfl, if_pos rfl, hvs]
        by_cases hbs : b = a
        · simp [dictGet_dictInsert, hbs]
        · simp [dictGet_dictInsert, hbs, lookupNbr, hvs]
      · rw [if_pos rfl, if_neg hax, hvd]
        simp only [dictGet_dictInsert]
        by_cases hbs : b = src
        · simp [hbs, hax]
        · simp [hbs, hax, lookupNbr, hvd]
    · rw [if_neg had]
      by_cases has : a = src
      · subst has
        rw [if_pos rfl, hvs]
        simp only [dictGet_dictInsert]
        by_cases hbd : b = dst
        · simp [hbd]
        · simp [hbd, had, lookupNbr, hvs]
      · simp [has, had, lookupNbr]
  · intro a
    simp [containsB_updateNbrs]

theorem inv_empty : EdgeSymm ⟨[]⟩ ∧ NbrsPresent ⟨[]⟩ := by
  constructor
  · intro a b w
    simp [lookupNbr, dictGet]
  · intro a b w h
    simp [lookupNbr, dictGet] at h

theorem inv_applyOp (dist : Nat → Nat → Int) (g : AirportsGraph) (op : GraphOp)
    (hS : EdgeSymm g) (hP : NbrsPresent g) :
    EdgeSymm (applyOp dist g op) ∧ NbrsPresent (applyOp dist g op) := by
  cases op with
  | addV id item gpi =>
    constructor
    · intro a b w
      show lookupNbr (add_vertex g id item gpi) a b = some w ↔
        lookupNbr (add_vertex g id item gpi) b a = some w
      rw [lookupNbr_add_vertex, lookupNbr_add_vertex]
      by_cases hf : containsB g id = false
      · by_cases ha : a = id
        · subst ha
          rw [if_pos ⟨hf, rfl⟩]
          by_cases hb : b = a
          · subst hb
            rw [if_pos ⟨hf, rfl⟩]
          · rw [if_neg (fun hh => hb hh.2)]
            constructor
            · intro h
              exact absurd h (by simp)
            · intro hba
              have hca := hP b a w hba
              rw [hca] at hf
              exact absurd hf (by simp)
        · by_cases hb : b = id
          · subst hb
            rw [if_neg (fun hh => ha hh.2), if_pos ⟨hf, rfl⟩]
            constructor
            · intro hab
              have hcb := hP a b w hab
              rw [hcb] at hf
              exact absurd hf (by simp)
            · intro h
              exact absurd h (by simp)
          · rw [if_neg (fun hh => ha hh.2), if_neg (fun hh => hb hh.2)]
            exact hS a b w
      · rw [if_neg (fun hh => hf hh.1), if_neg (fun hh => hf hh.1)]
        exact hS a b w
    · intro a b w h
      simp only [applyOp] at h ⊢
      rw [lookupNbr_add_vertex] at h
      by_cases hc : containsB g id = false ∧ a = id
      · rw [if_pos hc] at h
        exact absurd h (by simp)
      · rw [if_neg hc] at h
        exact containsB_add_vertex_of g id item gpi b (hP a b w h)
  | addE s d =>
    show EdgeSymm (applyOp dist g (.addE s d)) ∧ NbrsPresent (applyOp dist g (.addE s d))
    by_cases hs : containsB g s = true
    · by_cases hd : containsB g d = true
      · by_cases he1 : lookupNbr g d s = none
        · by_cases he2 : lookupNbr g s d = none
          · obtain ⟨heq, hlook, hcont⟩ := add_edge_new_spec dist g s d hs hd he1 he2
            have happ : applyOp dist g (.addE s d) =
                updateNbrs (updateNbrs g s (dictInsert d (dist s d)))
                  d (dictInsert s (dist s d)) := by
              simp [applyOp, heq]
            rw [happ]
            have hsymmC : ∀ a b : Nat,
                ((a = s ∧ b = d) ∨ (a = d ∧ b = s)) ↔ ((b = s ∧ a = d) ∨ (b = d ∧ a = s)) := by
              tauto
            constructor
            · intro a b w
              rw [hlook, hlook]
              by_cases hC : (a = s ∧ b = d) ∨ (a = d ∧ b = s)
              · rw [if_pos hC, if_pos ((hsymmC a b).mp hC)]
              · rw [if_neg hC, if_neg (fun hh => hC ((hsymmC b a).mp hh))]
                exact hS a b w
            · intro a b w h
              rw [hlook] at h
              rw [hcont]
              by_cases hC : (a = s ∧ b = d) ∨ (a = d ∧ b = s)
              · rcases hC with ⟨_, hb⟩ | ⟨_, hb⟩
                · exact hb ▸ hd
                · exact hb ▸ hs
              · rw [if_neg hC] at h
                exact hP a b w h
          · have heq : add_edge dist g s d = .ok g := by
              have : (lookupNbr g s d).isSome = true := by
                cases hx : lookupNbr g s d
                · exact absurd hx he2
                · rfl
              simp [add_edge, hs, hd, this]
            have happ : applyOp dist g (.addE s d) = g := by simp [applyOp, heq]
            rw [happ]
            exact ⟨hS, hP⟩
        · have heq : add_edge dist g s d = .ok g := by
            have : (lookupNbr g d s).isSome = true := by
              cases hx : lookupNbr g d s
              · exact absurd hx he1
              · rfl
            simp [add_edge, hs, hd, this]
          have happ : applyOp dist g (.addE s d) = g := by simp [applyOp, heq]
          rw [happ]
          exact ⟨hS, hP⟩
      · have heq : add_edge dist g s d =
            .error "Source ID or Destination ID do not exist in this graph." := by
          simp [add_edge, hd]
        have happ : applyOp dist g (.addE s d) = g := by simp [applyOp, heq]
        rw [happ]
        exact ⟨hS, hP⟩
    · have heq : add_edge dist g s d =
          .error "Source ID or Destination ID do not exist in this graph." := by
        simp [add_edge, hs]
      have happ : applyOp dist g (.addE s d) = g := by simp [applyOp, heq]
      rw [happ]
      exact ⟨hS, hP⟩

theorem dfsFold_sound (g : AirportsGraph) (maxd : Int) (fuel : Nat)
    (IH : ∀ id b vis res, dfs_for_distance g fuel id b vis = .ok res →
      ∀ x, x ∈ res → x ∈ vis ∨ (0 ≤ b ∧ ∃ c, PathWeight g id x c ∧ c ≤ b)) :
    ∀ (ns : List (Nat × Int)) (vis res : List Nat),
      ns.foldlM (fun acc p => dfs_for_distance g fuel p.1 (maxd - p.2) acc) vis = .ok res →
      ∀ x, x ∈ res →
        x ∈ vis ∨ ∃ p, p ∈ ns ∧ 0 ≤ maxd - p.2 ∧ ∃ c, PathWeight g p.1 x c ∧ c ≤ maxd - p.2 := by
  intro ns
  induction ns with
  | nil =>
    intro vis res h x hx
    simp only [List.foldlM, pure] at h
    cases h
    exact Or.inl hx
  | cons p rest ih =>
    intro vis res h x hx
    simp only [List.foldlM] at h
    cases hmid : dfs_for_distance g fuel p.1 (maxd - p.2) vis with
    | error e =>
      rw [hmid] at h
      simp only [bind, Except.bind] at h
      exact absurd h (by simp)
    | ok mid =>
      rw [hmid] at h
      have h' : rest.foldlM (fun acc p => dfs_for_distance g fuel p.1 (maxd - p.2) acc) mid
          = .ok res := h
      rcases ih mid res h' x hx with hv | ⟨q, hq, hle, c, hpc, hc⟩
      · rcases IH p.1 (maxd - p.2) vis mid hmid x hv with hv2 | ⟨hle, c, hpc, hc⟩
        · exact Or.inl hv2
        · exact Or.inr ⟨p, List.mem_cons_self _ _, hle, c, hpc, hc⟩
      · exact Or.inr ⟨q, List.mem_cons_of_mem _ hq, hle, c, hpc, hc⟩

theorem dfs_sound (g : AirportsGraph) :
    ∀ (fuel : Nat) (id : Nat) (b : Int) (vis res : List Nat),
      dfs_for_distance g fuel id b vis = .ok res →
      ∀ x, x ∈ res → x ∈ vis ∨ (0 ≤ b ∧ ∃ c, PathWeight g id x c ∧ c ≤ b) := by
  intro fuel
  induction fuel with
  | zero =>
    intro id b vis res h x hx
    simp only [dfs_for_distance] at h
    cases h
    exact Or.inl hx
  | succ fuel ih =>
    intro id b vis res h x hx
    rw [dfs_for_distance] at h
    by_cases hc : b < 0 ∨ id ∈ vis
    · rw [if_pos hc] at h
      cases h
      exact Or.inl hx
    · rw [if_neg hc] at h
      rw [not_or] at hc
      obtain ⟨hb0, _⟩ := hc
      cases hv : dictGet id g.vertices with
      | none =>
        rw [hv] at h
        exact absurd h (by simp)
      | some v =>
        rw [hv] at h
        rcases dfsFold_sound g b fuel ih v.neighbours (vis ++ [id]) res h x hx with
          hvv | ⟨p, hp, hle, c, hpc, hcle⟩
        · rcases List.mem_append.mp hvv with h1 | h2
          · exact Or.inl h1
          · have hx_id : x = id := by simpa using h2
            subst hx_id
            exact Or.inr ⟨by omega, 0, PathWeight.nil x, by omega⟩
        · refine Or.inr ⟨by omega, p.2 + c, ?_, by omega⟩
          have hmem : (p.1, p.2) ∈ nbrsOf g id := by
            simpa [nbrsOf, hv] using hp
          exact PathWeight.cons hmem hpc

theorem wfB_spec {g : AirportsGraph} (h : wfB g = true) {a : Nat} {v : AirportVertex}
    (hv : dictGet a g.vertices = some v) : ∀ p ∈ v.neighbours, containsB g p.1 = true := by
  intro p hp
  rw [wfB, List.all_eq_true] at h
  have h2 := h (a, v) (dictGet_some_mem hv)
  rw [List.all_eq_true] at h2
  exact h2 p hp

theorem isConnFold_total (g : AirportsGraph) (fuel : Nat) (dst : Nat)
    (IH : ∀ src vis, containsB g src = true →
      ∃ r, is_connectedF g fuel src dst vis = .ok r) :
    ∀ (ns : List Nat), (∀ n ∈ ns, containsB g n = true) →
      ∀ st : Bool × List Nat,
        ∃ r, ns.foldlM
          (fun st n =>
            if st.1 then .ok st
            else if n ∈ st.2 then .ok st
            else is_connectedF g fuel n dst st.2) st = .ok r := by
  intro ns
  induction ns with
  | nil =>
    intro _ st
    exact ⟨st, rfl⟩
  | cons n rest ih =>
    intro hns st
    simp only [List.foldlM]
    by_cases hf : st.1 = true
    · rw [if_pos hf]
      simp only [bind, Except.bind]
      exact ih (fun m hm => hns m (List.mem_cons_of_mem _ hm)) st
    · rw [if_neg hf]
      by_cases hv : n ∈ st.2
      · rw [if_pos hv]
        simp only [bind, Except.bind]
        exact ih (fun m hm => hns m (List.mem_cons_of_mem _ hm)) st
      · rw [if_neg hv]
        obtain ⟨r, hr⟩ := IH n st.2 (hns n (List.mem_cons_self _ _))
        rw [hr]
        simp only [bind, Except.bind]
        exact ih (fun m hm => hns m (List.mem_cons_of_mem _ hm)) r

theorem is_connectedF_total (g : AirportsGraph) (hwf : wfB g = true) :
    ∀ (fuel : Nat) (src dst : Nat) (vis : List Nat), containsB g src = true →
      ∃ r, is_connectedF g fuel src dst vis = .ok r := by
  intro fuel
  induction fuel with
  | zero =>
    intro src dst vis _
    exact ⟨(false, vis), rfl⟩
  | succ fuel ih =>
    intro src dst vis hsrc
    rw [is_connectedF]
    by_cases hsd : src = dst
    · rw [if_pos hsd]
      exact ⟨(true, vis), rfl⟩
    · rw [if_neg hsd]
      obtain ⟨v, hv⟩ := Option.isSome_iff_exists.mp hsrc
      rw [hv]
      refine isConnFold_total g fuel dst (fun s vis' hs => ih s dst vis' hs)
        (v.neighbours.map Prod.fst) ?_ (false, vis ++ [src])
      intro n hn
      obtain ⟨p, hp, hpn⟩ := List.mem_map.mp hn
      exact hpn ▸ wfB_spec hwf hv p hp

theorem nbr_within_mono (g : AirportsGraph) (s : Nat) (d1 d2 : Int)
    (hs : containsB g s = true) (hd : d1 ≤ d2) :
    ∃ l1 l2, get_neighbour_within_dist g s d1 = .ok l1 ∧
      get_neighbour_within_dist g s d2 = .ok l2 ∧ ∀ x, x ∈ l1 → x ∈ l2 := by
  obtain ⟨v, hv⟩ := Option.isSome_iff_exists.mp hs
  refine ⟨(v.neighbours.filter (fun p => decide (p.2 ≤ d1))).map Prod.fst,
    (v.neighbours.filter (fun p => decide (p.2 ≤ d2))).map Prod.fst, ?_, ?_, ?_⟩
  · simp only [get_neighbour_within_dist, hv]
  · simp only [get_neighbour_within_dist, hv]
  · intro x hx
    simp only [List.mem_map, List.mem_filter] at hx ⊢
    obtain ⟨p, ⟨hpmem, hple⟩, hpx⟩ := hx
    rw [decide_eq_true_eq] at hple
    exact ⟨p, ⟨hpmem, by rw [decide_eq_true_eq]; omega⟩, hpx⟩

theorem closeAdj_fold_mono (g : AirportsGraph) (d1 d2 : Int) (hd : d1 ≤ d2) :
    ∀ (rest : List Nat), (∀ s ∈ rest, containsB g s = true) →
      ∀ acc1 acc2 : List Nat, (∀ x, x ∈ acc1 → x ∈ acc2) →
      ∃ r1 r2,
        rest.foldlM (adjStep g d1) acc1 = .ok r1 ∧
        rest.foldlM (adjStep g d2) acc2 = .ok r2 ∧
        ∀ x, x ∈ r1 → x ∈ r2 := by
  intro rest
  induction rest with
  | nil =>
    intro _ acc1 acc2 hsub
    exact ⟨acc1, acc2, rfl, rfl, hsub⟩
  | cons s rest ih =>
    intro hpres acc1 acc2 hsub
    obtain ⟨l1, l2, h1, h2, hl⟩ :=
      nbr_within_mono g s d1 d2 (hpres s (List.mem_cons_self _ _)) hd
    simp only [List.foldlM, adjStep, h1, h2, bind, Except.bind]
    refine ih (fun m hm => hpres m (List.mem_cons_of_mem _ hm)) _ _ ?_
    intro x hx
    rw [List.mem_filter] at hx ⊢
    refine ⟨hsub x hx.1, ?_⟩
    have hx1 : x ∈ l1 := by
      have hc2 := hx.2
      simpa [List.contains] using hc2
    simp [List.contains]
    exact hl x hx1

theorem inv_buildGraph (dist : Nat → Nat → Int) (ops : List GraphOp) :
    EdgeSymm (buildGraph dist ops) ∧ NbrsPresent (buildGraph dist ops) := by
  suffices h : ∀ g, EdgeSymm g → NbrsPresent g →
      EdgeSymm (ops.foldl (applyOp dist) g) ∧ NbrsPresent (ops.foldl (applyOp dist) g) by
    exact h ⟨[]⟩ inv_empty.1 inv_empty.2
  induction ops with
  | nil => exact fun g hS hP => ⟨hS, hP⟩
  | cons op rest ih =>
    intro g hS hP
    obtain ⟨hS', hP'⟩ := inv_applyOp dist g op hS hP
    simpa [List.foldl] using ih _ hS' hP'

/-! ## Claim theorems -/

/-- C1.  Step 2 of `rank_airports` does NOT operate within each country
group: on `gRank` with candidates `[1, 2]` and `max_out_size = 1`, the list
kept for country `"CB"` is `[1]`, although airport 1 is in country `"CA"`
(line 308 of `main.py` sorts the whole candidate set `airport_ids` instead
of `countries[country]`, contradicting the method's own docstring). -/
theorem c1_step2_mixes_countries :
    groupByCountry gRank [1, 2] = .ok [("CA", [1]), ("CB", [2])]
    ∧ rankStep2 gRank [1, 2] 1 [("CA", [1]), ("CB", [2])] = [("CA", [1]), ("CB", [1])]
    ∧ (dictGet 1 gRank.vertices).map (fun v => v.item.country) = some "CA"
    ∧ (dictGet 2 gRank.vertices).map (fun v => v.item.country) = some "CB" := by
  exact ⟨by rfl, by rfl, by rfl, by rfl⟩

/-- C2 (amended).  For a fixed non-empty seed list of present ids and
budgets `d1 ≤ d2`, the adjacent-close query is monotone: the result at `d1`
is a subset of the result at `d2`.  (The reachable-close query is NOT
monotone; see the counterexample.) -/
theorem c2_adjacent_monotone (g : AirportsGraph) (seeds : List Nat) (d1 d2 : Int)
    (hne : seeds ≠ []) (hpres : seeds.all (fun s => containsB g s) = true) (hd : d1 ≤ d2) :
    ∃ r1 r2, get_close_airports_adjacent g seeds d1 = .ok r1 ∧
      get_close_airports_adjacent g seeds d2 = .ok r2 ∧ ∀ x, x ∈ r1 → x ∈ r2 := by
  match seeds, hne with
  | first :: rest, _ =>
    rw [List.all_eq_true] at hpres
    obtain ⟨l1, l2, h1, h2, hl⟩ :=
      nbr_within_mono g first d1 d2 (hpres first (List.mem_cons_self _ _)) hd
    simp only [get_close_airports_adjacent, h1, h2]
    exact closeAdj_fold_mono g d1 d2 hd rest
      (fun s hs => hpres s (List.mem_cons_of_mem _ hs)) l1 l2 hl

/-- Witness for `c2_adjacent_monotone` at a concrete instance. -/
theorem c2_adjacent_monotone_witness :
    ([0] : List Nat) ≠ [] ∧ ([0].all (fun s => containsB gBudget s) = true)
    ∧ ((4 : Int) ≤ 201)
    ∧ ∃ r1 r2, get_close_airports_adjacent gBudget [0] 4 = .ok r1 ∧
        get_close_airports_adjacent gBudget [0] 201 = .ok r2 ∧ ∀ x, x ∈ r1 → x ∈ r2 :=
  ⟨by decide, by decide, by decide,
    c2_adjacent_monotone gBudget [0] 4 201 (by decide) (by decide) (by decide)⟩

/-- C2 counterexample.  The reachable-close query is not monotone in the
budget: on `gBudget` with seed `[0]`, vertex 4 is in the result for budget
4 but not in the result for the larger budget 201 (the traversal first
reaches vertex 3 through the expensive route 0–1–3, freezing its remaining
budget below the cost of the 3–4 edge). -/
theorem c2_connected_not_monotone :
    (4 : Int) ≤ 201
    ∧ get_close_airports_connected gBudget [0] 4 = .ok [0, 2, 3, 4]
    ∧ get_close_airports_connected gBudget [0] 201 = .ok [0, 1, 3, 2]
    ∧ (4 : Nat) ∈ [0, 2, 3, 4]
    ∧ (4 : Nat) ∉ [0, 1, 3, 2] := by
  exact ⟨by decide, by rfl, by rfl, by decide, by decide⟩

/-- C3 counterexample.  `add_edge(x, x)` on a present id does not fail with
an invalid-argument error and does not leave the graph unchanged: on the
one-vertex graph `gSelf` it succeeds and records vertex 0 as its own
neighbour with the computed weight. -/
theorem c3_self_loop_inserted :
    containsB gSelf 0 = true
    ∧ (add_edge (fun _ _ => 7) gSelf 0 0).toOption.map (fun g' => lookupNbr g' 0 0)
        = some (some 7) := by
  exact ⟨by decide, by rfl⟩

/-- C3 (amended).  For every distance function, every graph and every
present id `x` not already listing itself, `add_edge(x, x)` raises no
error: it succeeds and inserts `x` into its own neighbour dictionary with
weight `dist x x` (the self-loop precondition of the source is not
checked). -/
theorem c3_self_loop_behaviour (dist : Nat → Nat → Int) (g : AirportsGraph) (x : Nat)
    (hx : containsB g x = true) (hno : lookupNbr g x x = none) :
    ∃ g', add_edge dist g x x = .ok g' ∧ lookupNbr g' x x = some (dist x x) := by
  obtain ⟨heq, hlook, _⟩ := add_edge_new_spec dist g x x hx hx hno hno
  exact ⟨_, heq, by rw [hlook]; simp⟩

/-- Witness for `c3_self_loop_behaviour` at a concrete instance. -/
theorem c3_self_loop_behaviour_witness :
    containsB gSelf 0 = true ∧ lookupNbr gSelf 0 0 = none
    ∧ ∃ g', add_edge (fun _ _ => (7 : Int)) gSelf 0 0 = .ok g'
        ∧ lookupNbr g' 0 0 = some 7 :=
  ⟨by decide, by rfl, c3_self_loop_behaviour (fun _ _ => 7) gSelf 0 (by decide) (by rfl)⟩

/-- C4 counterexample.  `is_connected` does return a boolean for an absent
id: on `gBudget`, id 99 is absent yet `is_connected(0, 99)` returns
`False` instead of failing with a not-found error. -/
theorem c4_absent_destination_returns_bool :
    containsB gBudget 99 = false ∧ is_connected gBudget 0 99 = .ok false := by
  exact ⟨by decide, by rfl⟩

/-- C4 (amended).  `is_connected(a, b)` raises the not-found error exactly
when the source `a` is absent and `a ≠ b`: when `a = b` it returns `True`
even for an absent id, and when `a` is present it always returns a boolean
(on a well-formed graph), even if the destination `b` is absent. -/
theorem c4_error_characterisation (g : AirportsGraph) (a b : Nat) :
    (containsB g a = false → a ≠ b →
      is_connected g a b = .error "The given airport id does not exist.")
    ∧ (a = b → is_connected g a b = .ok true)
    ∧ (wfB g = true → containsB g a = true → ∃ bl, is_connected g a b = .ok bl) := by
  refine ⟨?_, ?_, ?_⟩
  · intro hc hne
    have hnone : dictGet a g.vertices = none := by
      cases hx : dictGet a g.vertices
      · rfl
      · simp [containsB, hx] at hc
    rw [is_connected, is_connectedF, if_neg hne, hnone]
    rfl
  · intro hab
    subst hab
    rw [is_connected, is_connectedF, if_pos rfl]
    rfl
  · intro hwf hpres
    obtain ⟨r, hr⟩ := is_connectedF_total g hwf (g.vertices.length + 1) a b [] hpres
    refine ⟨r.1, ?_⟩
    rw [is_connected, hr]
    rfl

/-- Witness for `c4_error_characterisation` at a concrete instance. -/
theorem c4_error_characterisation_witness :
    wfB gBudget = true ∧ containsB gBudget 3 = true
    ∧ ∃ bl, is_connected gBudget 3 0 = .ok bl :=
  ⟨by decide, by decide,
    (c4_error_characterisation gBudget 3 0).2.2 (by decide) (by decide)⟩

/-- C5 counterexample.  With an absent source id, `get_connected_within_dist`
does not fail with a not-found error: it returns the empty set. -/
theorem c5_absent_source_returns_empty :
    containsB gBudget 99 = false ∧ get_connected_within_dist gBudget 99 5 = .ok [] := by
  exact ⟨by decide, by rfl⟩

/-- C5 (amended).  `get_connected_within_dist` returns the empty set — with
no error — both when the source id is absent and when `max_distance` is
negative. -/
theorem c5_empty_result_cases (g : AirportsGraph) (id : Nat) (maxd : Int)
    (h : containsB g id = false ∨ maxd < 0) :
    get_connected_within_dist g id maxd = .ok [] := by
  by_cases hc : containsB g id = true
  · have hneg : maxd < 0 := by
      rcases h with h | h
      · rw [hc] at h
        cases h
      · exact h
    rw [get_connected_within_dist, if_pos hc, dfs_for_distance, if_pos (Or.inl hneg)]
  · rw [get_connected_within_dist, if_neg hc]

/-- Witness for `c5_empty_result_cases` at a concrete instance. -/
theorem c5_empty_result_cases_witness :
    (containsB gBudget 0 = false ∨ (-3 : Int) < 0)
    ∧ get_connected_within_dist gBudget 0 (-3) = .ok [] :=
  ⟨Or.inr (by decide), c5_empty_result_cases gBudget 0 (-3) (Or.inr (by decide))⟩

/-- C6.  Budgeted reachability is sound: every id in the set returned by
`get_connected_within_dist(source, max_distance)` for a present source is
joined to the source by a route path whose total edge weight is at most
`max_distance` (the source itself via the empty path of weight 0). -/
theorem c6_reachability_sound (g : AirportsGraph) (src : Nat) (maxd : Int)
    (res : List Nat) (hsrc : containsB g src = true)
    (hres : get_connected_within_dist g src maxd = .ok res) :
    ∀ x, x ∈ res → ∃ c, PathWeight g src x c ∧ c ≤ maxd := by
  intro x hx
  rw [get_connected_within_dist, if_pos hsrc] at hres
  rcases dfs_sound g (g.vertices.length + 1) src maxd [] res hres x hx with h | ⟨_, c, hpc, hc⟩
  · simp at h
  · exact ⟨c, hpc, hc⟩

/-- Witness for `c6_reachability_sound` at a concrete instance. -/
theorem c6_reachability_sound_witness :
    containsB gBudget 0 = true
    ∧ get_connected_within_dist gBudget 0 4 = .ok [0, 2, 3, 4]
    ∧ ∃ c, PathWeight gBudget 0 4 c ∧ c ≤ (4 : Int) :=
  ⟨by decide, by rfl,
    c6_reachability_sound gBudget 0 4 [0, 2, 3, 4] (by decide) (by rfl) 4 (by decide)⟩

/-- C7.  Edge symmetry is an invariant of every sequence of `add_vertex`
and `add_edge` calls starting from the empty graph: `b` appears in `a`'s
neighbour dictionary with weight `w` iff `a` appears in `b`'s neighbour
dictionary with the same weight `w`. -/
theorem c7_edge_symmetry (dist : Nat → Nat → Int) (ops : List GraphOp) (a b : Nat) (w : Int) :
    lookupNbr (buildGraph dist ops) a b = some w ↔
      lookupNbr (buildGraph dist ops) b a = some w :=
  (inv_buildGraph dist ops).1 a b w

/-- C8.  Edge insertion is idempotent: if an edge between two distinct
present ids exists in either direction, `add_edge(a, b)` and
`add_edge(b, a)` are no-ops — the graph (hence every neighbour set and
stored weight) is returned unchanged, for EVERY distance function, so the
weight is never recomputed. -/
theorem c8_add_edge_idempotent (dist : Nat → Nat → Int) (g : AirportsGraph) (a b : Nat)
    (_hab : a ≠ b) (ha : containsB g a = true) (hb : containsB g b = true)
    (he : ((lookupNbr g b a).isSome || (lookupNbr g a b).isSome) = true) :
    add_edge dist g a b = .ok g ∧ add_edge dist g b a = .ok g := by
  constructor
  · rw [add_edge, if_pos (by rw [ha, hb]; rfl), if_pos he]
  · rw [add_edge, if_pos (by rw [ha, hb]; rfl),
      if_pos (by rw [Bool.or_comm] at he; exact he)]

/-- Witness for `c8_add_edge_idempotent` at a concrete instance. -/
theorem c8_add_edge_idempotent_witness :
    (0 : Nat) ≠ 1 ∧ containsB gBudget 0 = true ∧ containsB gBudget 1 = true
    ∧ ((lookupNbr gBudget 1 0).isSome || (lookupNbr gBudget 0 1).isSome) = true
    ∧ (add_edge distBudget gBudget 0 1 = .ok gBudget
        ∧ add_edge distBudget gBudget 1 0 = .ok gBudget) :=
  ⟨by decide, by decide, by decide, by rfl,
    c8_add_edge_idempotent distBudget gBudget 0 1 (by decide) (by decide) (by decide) (by rfl)⟩

/-- C9 counterexample.  `rank_airports` with `max_out_size = 0` and a
non-empty candidate set does not return the empty list: it raises an
`IndexError` (every per-country list is truncated to `[]`, and the
country-ordering key then evaluates `countries[country][0]`). -/
theorem c9_zero_size_raises :
    containsB gRank 1 = true
    ∧ rank_airports gRank [1] 0 = .error "list index out of range" := by
  exact ⟨by decide, by rfl⟩

/-- C9 (amended).  Whenever `rank_airports` returns a list, its length is
at most `max_out_size`, and an empty candidate set yields the empty list;
but `max_out_size = 0` with a non-empty candidate set raises an
`IndexError` instead of returning `[]`. -/
theorem c9_rank_bound (g : AirportsGraph) (cands : List Nat) (k : Nat) :
    (∀ l, rank_airports g cands k = .ok l → l.length ≤ k)
    ∧ rank_airports g [] k = .ok [] := by
  constructor
  · intro l h
    cases hg : groupByCountry g cands with
    | error e =>
      simp only [rank_airports, hg] at h
      cases h
    | ok groups =>
      cases hm : (rankStep2 g cands k groups).mapM (countryKey g) with
      | error e =>
        simp only [rank_airports, hg, hm] at h
        cases h
      | ok keyed =>
        simp only [rank_airports, hg, hm, Except.ok.injEq] at h
        rw [← h]
        exact List.length_take_le _ _
  · have h1 : rank_airports g [] k = .ok (List.take k []) := rfl
    rw [h1, List.take_nil]

/-- Witness for `c9_rank_bound` at a concrete instance. -/
theorem c9_rank_bound_witness :
    rank_airports gRank [1, 2] 1 = .ok [1] ∧ [1].length ≤ 1 :=
  ⟨by rfl, (c9_rank_bound gRank [1, 2] 1).1 [1] (by rfl)⟩

/-- C10.  `get_distance` on two present, non-adjacent ids returns 0 rather
than raising (so an absent edge is indistinguishable from a genuine
zero-kilometre edge), and it raises exactly when one of the ids is absent
from the graph. -/
theorem c10_get_distance_behaviour (g : AirportsGraph) (a b : Nat) :
    (containsB g a = true → containsB g b = true → lookupNbr g a b = none →
      get_distance g a b = .ok 0)
    ∧ ((containsB g a = false ∨ containsB g b = false) →
      get_distance g a b = .error "No distance given between these two airports.") := by
  constructor
  · intro ha hb hno
    obtain ⟨v1, hv1⟩ := Option.isSome_iff_exists.mp ha
    obtain ⟨v2, hv2⟩ := Option.isSome_iff_exists.mp hb
    have hn : dictGet b v1.neighbours = none := by
      simpa [lookupNbr, hv1] using hno
    simp [get_distance, hv1, hv2, hn]
  · intro h
    rcases h with h | h
    · have hn : dictGet a g.vertices = none := by
        cases hx : dictGet a g.vertices
        · rfl
        · simp [containsB, hx] at h
      simp [get_distance, hn]
    · have hn : dictGet b g.vertices = none := by
        cases hx : dictGet b g.vertices
        · rfl
        · simp [containsB, hx] at h
      cases hx : dictGet a g.vertices <;> simp [get_distance, hx, hn]

/-- Witness for `c10_get_distance_behaviour` at a concrete instance. -/
theorem c10_get_distance_behaviour_witness :
    containsB gBudget 0 = true ∧ containsB gBudget 3 = true
    ∧ lookupNbr gBudget 0 3 = none ∧ get_distance gBudget 0 3 = .ok 0 :=
  ⟨by decide, by decide, by rfl,
    (c10_get_distance_behaviour gBudget 0 3).1 (by decide) (by decide) (by rfl)⟩
